import Mathlib

/-!
Verification of the Health Compass RAG core against its specification.

The Python source is shallowly embedded: strings are `List Char`, the
classifier / chunker / orchestrator are total Lean functions translated
line-by-line from `src/utils/safety.py`, `src/processors/text_processor.py`,
`src/rag/vector_db.py`, `src/rag/openrouter_client.py` and
`src/rag/rag_pipeline.py`.  Python regex classes `\s` and `\w` are modelled
over their ASCII meaning (the corpus and keyword lists are ASCII).
-/

set_option maxRecDepth 100000

/-- The character list underlying a string literal. -/
def strL (s : String) : List Char := s.data

/-- ASCII model of Python whitespace (`str.split`, `str.strip`, regex `\s`). -/
def isPySpace (c : Char) : Bool :=
  c == ' ' || c == '\t' || c == '\n' || c == '\x0d' || c == '\x0b' || c == '\x0c'

/-- Per-character lowercasing, the ASCII model of Python `str.lower`. -/
def lowerL (l : List Char) : List Char := l.map Char.toLower

/-- Does `hay` start with `needle`?  Model of Python `str.startswith`,
used below to define substring containment. -/
def startsWithCL : List Char → List Char → Bool
  | [], _ => true
  | _ :: _, [] => false
  | a :: as, b :: bs => a == b && startsWithCL as bs

/-- Substring containment: Python `needle in hay` on strings. -/
def containsSub (needle : List Char) : List Char → Bool
  | [] => needle.isEmpty
  | c :: t => startsWithCL needle (c :: t) || containsSub needle t

/- ------------------------------------------------------------------ -/
/- SafetyChecker (src/utils/safety.py)                                 -/
/- ------------------------------------------------------------------ -/

/-- The `emergency_keywords` list of `SafetyChecker.__init__`, in source order. -/
def emergency_keywords : List (List Char) :=
  [strL "chest pain", strL "heart attack", strL "severe chest pressure",
   strL "crushing chest pain", strL "chest discomfort radiating",
   strL "can't breathe", strL "difficulty breathing", strL "choking",
   strL "severe shortness of breath", strL "gasping for air",
   strL "blue lips", strL "blue face",
   strL "stroke", strL "stroke symptoms", strL "loss of consciousness",
   strL "passed out", strL "fainted", strL "unresponsive",
   strL "severe head injury", strL "head trauma", strL "seizure",
   strL "sudden confusion", strL "can't speak", strL "slurred speech",
   strL "face drooping", strL "arm weakness", strL "sudden numbness",
   strL "severe bleeding", strL "bleeding won't stop", strL "heavy bleeding",
   strL "major injury", strL "severe trauma", strL "broken neck",
   strL "spinal injury",
   strL "severe allergic reaction", strL "anaphylaxis", strL "anaphylactic shock",
   strL "throat swelling", strL "throat closing", strL "can't swallow",
   strL "suicidal", strL "want to die", strL "kill myself", strL "end my life",
   strL "suicide plan", strL "going to kill",
   strL "severe pain", strL "unbearable pain", strL "excruciating pain",
   strL "poisoning", strL "overdose", strL "took too many pills",
   strL "severe burn", strL "third degree burn",
   strL "compound fracture", strL "bone through skin"]

/-- The `urgent_keywords` list of `SafetyChecker.__init__`, in source order. -/
def urgent_keywords : List (List Char) :=
  [strL "high fever", strL "fever over 103", strL "fever won't go down",
   strL "persistent vomiting", strL "can't keep anything down",
   strL "severe dehydration", strL "dizzy and weak",
   strL "signs of infection", strL "wound infection", strL "red streaks",
   strL "pregnancy complications", strL "bleeding during pregnancy",
   strL "severe pain that won't go away",
   strL "broken bone", strL "think i broke", strL "deep cut",
   strL "eye injury", strL "something in eye",
   strL "severe headache", strL "worst headache of life",
   strL "stiff neck with fever"]

/-- Canned text of `SafetyChecker._get_emergency_message`. -/
def emergencyMessage : List Char := strL
"🚨 MEDICAL EMERGENCY - CALL 911 IMMEDIATELY 🚨

The symptoms you described may be a life-threatening emergency.

⚠️ DO NOT WAIT - CALL 911 OR GO TO EMERGENCY ROOM NOW

Call 911 if you're experiencing:
- Chest pain or severe pressure
- Difficulty breathing or can't breathe
- Signs of stroke (face drooping, arm weakness, speech difficulty, time to call 911)
- Severe bleeding that won't stop
- Loss of consciousness or unresponsiveness
- Seizures
- Severe allergic reaction (throat swelling, difficulty breathing)
- Thoughts of suicide or harming yourself
- Severe trauma or injury

📞 CALL 911 NOW - Do not drive yourself
📞 If you're having suicidal thoughts, call 988 (Suicide & Crisis Lifeline)

This is a medical emergency. Online information cannot help in emergencies.
SEEK IMMEDIATE PROFESSIONAL HELP."

/-- Canned text of `SafetyChecker._get_urgent_message`. -/
def urgentMessage : List Char := strL
"⚠️ URGENT MEDICAL ATTENTION RECOMMENDED

The symptoms you described may require prompt medical care.

Please take these steps:
1. Contact your doctor or healthcare provider within 24 hours
2. Visit an urgent care clinic if your doctor is unavailable
3. Go to the emergency room if symptoms worsen
4. Call 911 if you develop emergency symptoms

Do not rely solely on online information for urgent medical concerns.
Healthcare professionals can properly evaluate your specific situation.

If symptoms worsen or you develop emergency symptoms, call 911 immediately."

inductive SafetyLevel where
  | EMERGENCY
  | URGENT
  | INFO
deriving DecidableEq, Repr

/-- The dict returned by `SafetyChecker.check_query`. -/
structure SafetyResult where
  level : SafetyLevel
  message : Option (List Char)
  keyword_triggered : Option (List Char)
deriving DecidableEq, Repr

/-- The `for keyword in keywords: if keyword in query_lower: return ...` loop:
the first keyword of `kws` (in list order) contained in `ql`, else `none`. -/
def findTriggered (kws : List (List Char)) (ql : List Char) : Option (List Char) :=
  match kws with
  | [] => none
  | k :: ks => if containsSub k ql then some k else findTriggered ks ql

/-- `SafetyChecker.check_query`: lowercase the query (`query_lower`), scan the
emergency list first, then the urgent list; first containment match wins. -/
def check_query (query : List Char) : SafetyResult :=
  match findTriggered emergency_keywords (lowerL query) with
  | some k => ⟨SafetyLevel.EMERGENCY, some emergencyMessage, some k⟩
  | none =>
    match findTriggered urgent_keywords (lowerL query) with
    | some k => ⟨SafetyLevel.URGENT, some urgentMessage, some k⟩
    | none => ⟨SafetyLevel.INFO, none, none⟩

/- Loop lemmas for the classifier. -/

theorem findTriggered_eq_find? (kws : List (List Char)) (ql : List Char) :
    findTriggered kws ql = List.find? (fun k => containsSub k ql) kws := by
  induction kws with
  | nil => rfl
  | cons k ks ih =>
    by_cases h : containsSub k ql
    · simp [findTriggered, List.find?, h]
    · simp only [Bool.not_eq_true] at h
      simp [findTriggered, List.find?, h, ih]

theorem findTriggered_isSome_iff (kws : List (List Char)) (ql : List Char) :
    (findTriggered kws ql).isSome = true ↔
      ∃ k, k ∈ kws ∧ containsSub k ql = true := by
  rw [findTriggered_eq_find?, List.find?_isSome]

theorem findTriggered_eq_none_iff (kws : List (List Char)) (ql : List Char) :
    findTriggered kws ql = none ↔
      ∀ k, k ∈ kws → containsSub k ql = false := by
  rw [findTriggered_eq_find?, List.find?_eq_none]
  constructor
  · intro h k hk
    have := h k hk
    simpa using this
  · intro h k hk
    simp [h k hk]

theorem check_query_of_emergency_some (q : List Char) (k : List Char)
    (h : findTriggered emergency_keywords (lowerL q) = some k) :
    check_query q = ⟨SafetyLevel.EMERGENCY, some emergencyMessage, some k⟩ := by
  simp [check_query, h]

theorem check_query_level_emergency_iff (q : List Char) :
    (check_query q).level = SafetyLevel.EMERGENCY ↔
      (findTriggered emergency_keywords (lowerL q)).isSome = true := by
  cases hfe : findTriggered emergency_keywords (lowerL q) with
  | some k => simp [check_query, hfe]
  | none =>
    cases hfu : findTriggered urgent_keywords (lowerL q) with
    | some k => simp [check_query, hfe, hfu]
    | none => simp [check_query, hfe, hfu]

theorem check_query_message_of_emergency (q : List Char)
    (h : (check_query q).level = SafetyLevel.EMERGENCY) :
    (check_query q).message = some emergencyMessage := by
  rw [check_query_level_emergency_iff] at h
  obtain ⟨k, hk⟩ := Option.isSome_iff_exists.mp h
  simp [check_query, hk]

/-- C2: `SafetyChecker.check_query` matches by case-insensitive substring
containment against the lowercased query (the embedding `containsSub k (lowerL q)`
is exactly `keyword in query.lower()`); every emergency keyword is checked before
any urgent keyword and the first match wins, so a query containing both an
emergency and an urgent keyword is classified EMERGENCY; a query containing no
keyword from either list is classified INFO with no message and no triggering
keyword. -/
theorem c2_matching_policy (q : List Char) :
    ((∃ k, k ∈ emergency_keywords ∧ containsSub k (lowerL q) = true) →
        (check_query q).level = SafetyLevel.EMERGENCY) ∧
    ((∃ k, k ∈ emergency_keywords ∧ containsSub k (lowerL q) = true) →
      (∃ k, k ∈ urgent_keywords ∧ containsSub k (lowerL q) = true) →
        (check_query q).level = SafetyLevel.EMERGENCY) ∧
    ((∀ k, k ∈ emergency_keywords ++ urgent_keywords → containsSub k (lowerL q) = false) →
        check_query q = ⟨SafetyLevel.INFO, none, none⟩) := by
  have hemer : (∃ k, k ∈ emergency_keywords ∧ containsSub k (lowerL q) = true) →
      (check_query q).level = SafetyLevel.EMERGENCY := by
    intro h
    exact (check_query_level_emergency_iff q).mpr ((findTriggered_isSome_iff _ _).mpr h)
  refine ⟨hemer, fun h _ => hemer h, ?_⟩
  intro h
  have he : findTriggered emergency_keywords (lowerL q) = none :=
    (findTriggered_eq_none_iff _ _).mpr fun k hk => h k (List.mem_append_left _ hk)
  have hu : findTriggered urgent_keywords (lowerL q) = none :=
    (findTriggered_eq_none_iff _ _).mpr fun k hk => h k (List.mem_append_right _ hk)
  simp [check_query, he, hu]

/-- Concrete instance of C2: a query containing both the emergency keyword
"chest pain" and the urgent keyword "high fever" is classified EMERGENCY, and a
keyword-free query is classified INFO with empty message and trigger. -/
theorem c2_matching_policy_inst :
    (check_query (strL "I have chest pain and a high fever")).level
        = SafetyLevel.EMERGENCY ∧
    check_query (strL "what is diabetes") = ⟨SafetyLevel.INFO, none, none⟩ :=
  ⟨(c2_matching_policy _).2.1 ⟨strL "chest pain", by decide, by decide⟩
      ⟨strL "high fever", by decide, by decide⟩,
   (c2_matching_policy _).2.2 (by decide)⟩

/-- C10: the triggering keyword reported by `check_query` is determined by the
position of keywords in the classifier's fixed lists, not by their position in
the query text: it is `List.find?` — the FIRST element in list order whose
lowercase text occurs in the lowercased query — over `emergency_keywords`, and
over `urgent_keywords` only when no emergency keyword matches. -/
theorem c10_keyword_list_order (q : List Char) :
    (check_query q).keyword_triggered =
      Option.orElse
        (List.find? (fun k => containsSub k (lowerL q)) emergency_keywords)
        (fun _ => List.find? (fun k => containsSub k (lowerL q)) urgent_keywords) := by
  rw [← findTriggered_eq_find?, ← findTriggered_eq_find?]
  cases hfe : findTriggered emergency_keywords (lowerL q) with
  | some k => simp [check_query, hfe, Option.orElse]
  | none =>
    cases hfu : findTriggered urgent_keywords (lowerL q) with
    | some k => simp [check_query, hfe, hfu, Option.orElse]
    | none => simp [check_query, hfe, hfu, Option.orElse]

/- ------------------------------------------------------------------ -/
/- TextProcessor (src/processors/text_processor.py)                    -/
/- ------------------------------------------------------------------ -/

/-- ASCII model of regex `\w`: letters, digits, underscore. -/
def isWordChar (c : Char) : Bool := c.isAlphanum || c == '_'

/-- The allow-list of `clean_text`'s second regex: a character survives
`re.sub(r'[^\w\s\-,.()\[\]:/]', '', text)` iff this holds. -/
def allowedChar (c : Char) : Bool :=
  isWordChar c || isPySpace c ||
  c == '-' || c == ',' || c == '.' || c == '(' || c == ')' ||
  c == '[' || c == ']' || c == ':' || c == '/'

/-- `re.sub(r'\s+', ' ', text)`: each maximal run of whitespace becomes one
space.  The boolean argument records whether the previous character belonged
to a whitespace run already replaced. -/
def collapseAux : Bool → List Char → List Char
  | _, [] => []
  | inRun, c :: cs =>
    if isPySpace c then
      if inRun then collapseAux true cs else ' ' :: collapseAux true cs
    else c :: collapseAux false cs

def collapseWs (l : List Char) : List Char := collapseAux false l

/-- Python `str.strip()`: drop leading and trailing whitespace. -/
def stripL (l : List Char) : List Char :=
  ((l.dropWhile isPySpace).reverse.dropWhile isPySpace).reverse

/-- `TextProcessor.clean_text`: collapse whitespace runs, strip characters
outside the allow-list, then strip surrounding whitespace.  The empty-input
guard mirrors `if not text: return ""`. -/
def clean_text (text : List Char) : List Char :=
  if text.isEmpty then []
  else stripL ((collapseWs text).filter allowedChar)

/-- Python `str.split()`: split on runs of whitespace, no empty words.  The
accumulator holds the current word reversed. -/
def pySplitAux : List Char → List Char → List (List Char)
  | cur, [] => if cur.isEmpty then [] else [cur.reverse]
  | cur, c :: cs =>
    if isPySpace c then
      if cur.isEmpty then pySplitAux [] cs else cur.reverse :: pySplitAux [] cs
    else pySplitAux (c :: cur) cs

def pySplit (l : List Char) : List (List Char) := pySplitAux [] l

/-- Python `' '.join(words)`. -/
def joinSpace : List (List Char) → List Char
  | [] => []
  | [w] => w
  | w :: ws => w ++ ' ' :: joinSpace ws

/-- Rounded-up division, used to count loop iterations and to state the
spec's chunk-count formula. -/
def ceilDiv (a b : Nat) : Nat := (a + b - 1) / b

def chunkSizeDefault : Nat := 400

def overlapDefault : Nat := 50

def minChunkChars : Nat := 100

def minWordsForChunking : Nat := 50

/-- The word offsets visited by `range(0, len(words), chunk_size - overlap)`. -/
def chunkIdxs (numWords : Nat) : List Nat :=
  List.range' 0 (ceilDiv numWords (chunkSizeDefault - overlapDefault))
    (chunkSizeDefault - overlapDefault)

/-- One window: `' '.join(words[i:i + chunk_size])`. -/
def chunkWindow (words : List (List Char)) (i : Nat) : List Char :=
  joinSpace ((words.drop i).take chunkSizeDefault)

/-- `TextProcessor.chunk_text` at the default parameters (400/50).  The first
guard collapses `if not text or len(text) < 100` (empty text has length 0);
windows shorter than 101 characters are dropped by `if len(chunk) > 100`. -/
def chunk_text (text : List Char) : List (List Char) :=
  if text.length < minChunkChars then []
  else
    let words := pySplit text
    if words.length < minWordsForChunking then [text]
    else
      ((chunkIdxs words.length).map (chunkWindow words)).filter
        fun c => decide (minChunkChars < c.length)

/- Lemmas about clean_text (for C9). -/

theorem collapseAux_space_is_blank (l : List Char) :
    ∀ (b : Bool) (c : Char), c ∈ collapseAux b l → isPySpace c = true → c = ' ' := by
  induction l with
  | nil => intro b c hc; simp [collapseAux] at hc
  | cons a t ih =>
    intro b c hc hsp
    by_cases ha : isPySpace a
    · cases b with
      | true =>
        simp only [collapseAux, ha, if_pos, if_true] at hc
        exact ih true c hc hsp
      | false =>
        simp only [collapseAux, ha, if_pos, if_false] at hc
        rcases List.mem_cons.mp hc with h | h
        · exact h
        · exact ih true c h hsp
    · simp only [Bool.not_eq_true] at ha
      simp only [collapseAux, ha, Bool.false_eq_true, if_neg, if_false] at hc
      rcases List.mem_cons.mp hc with h | h
      · subst h; rw [ha] at hsp; exact absurd hsp (by simp)
      · exact ih false c h hsp

theorem mem_of_mem_stripL (l : List Char) (c : Char) (h : c ∈ stripL l) : c ∈ l := by
  unfold stripL at h
  rw [List.mem_reverse] at h
  have h2 := (List.dropWhile_sublist (l := (l.dropWhile isPySpace).reverse)
    (p := isPySpace)).subset h
  rw [List.mem_reverse] at h2
  exact (List.dropWhile_sublist (l := l) (p := isPySpace)).subset h2

/-- C9 (amended): every character of `clean_text`'s output is on the
allow-list, and every whitespace character of the output is the single space
character.  (The original claim additionally asserted that no run of two or
more consecutive whitespace characters remains; that part is false, because
deleting a disallowed character that sits between two spaces merges them
into a run.) -/
theorem c9_clean_text_allowlist (s : List Char) :
    (∀ c, c ∈ clean_text s → allowedChar c = true) ∧
    (∀ c, c ∈ clean_text s → isPySpace c = true → c = ' ') := by
  constructor
  · intro c hc
    unfold clean_text at hc
    split at hc
    · simp at hc
    · exact List.of_mem_filter (mem_of_mem_stripL _ _ hc)
  · intro c hc hsp
    unfold clean_text at hc
    split at hc
    · simp at hc
    · have h1 := mem_of_mem_stripL _ _ hc
      have h2 := List.mem_of_mem_filter h1
      exact collapseAux_space_is_blank s false c h2 hsp

/-- Detects a run of two or more consecutive whitespace characters. -/
def hasDoubleWs : List Char → Bool
  | a :: b :: t => (isPySpace a && isPySpace b) || hasDoubleWs (b :: t)
  | _ => false

/-- C9 counterexample: on input `"a @ b"` the whitespace-collapse pass leaves
single spaces, but deleting the disallowed `'@'` merges the two spaces around
it, so the output `"a  b"` contains a run of two whitespace characters —
refuting the claim that no such run ever remains. -/
theorem c9_whitespace_run_counterexample :
    clean_text (strL "a @ b") = strL "a  b" ∧
    hasDoubleWs (clean_text (strL "a @ b")) = true := by
  constructor
  · rfl
  · decide

/-- Concrete instance of the amended C9 theorem at input `"a @ b"`. -/
theorem c9_clean_text_allowlist_inst :
    'a' ∈ clean_text (strL "a @ b") ∧ allowedChar 'a' = true :=
  ⟨by decide, (c9_clean_text_allowlist (strL "a @ b")).1 'a' (by decide)⟩

/- Lemmas about pySplit / joinSpace (for C3). -/

theorem pySplitAux_good (l : List Char) :
    ∀ (cur : List Char), (∀ c, c ∈ cur → isPySpace c = false) →
      ∀ w, w ∈ pySplitAux cur l → w ≠ [] ∧ ∀ c, c ∈ w → isPySpace c = false := by
  induction l with
  | nil =>
    intro cur hcur w hw
    unfold pySplitAux at hw
    split at hw
    · simp at hw
    · rename_i hne
      rw [List.mem_singleton] at hw
      subst hw
      refine ⟨by simpa using (by simpa [List.isEmpty_iff] using hne), ?_⟩
      intro c hc
      exact hcur c (List.mem_reverse.mp hc)
  | cons a t ih =>
    intro cur hcur w hw
    by_cases ha : isPySpace a
    · by_cases hce : cur.isEmpty
      · simp only [pySplitAux, ha, if_pos, hce, if_true] at hw
        exact ih [] (by simp) w hw
      · simp only [pySplitAux, ha, if_pos, hce, if_false] at hw
        rcases List.mem_cons.mp hw with h | h
        · subst h
          refine ⟨by simpa [List.isEmpty_iff] using hce, ?_⟩
          intro c hc
          exact hcur c (List.mem_reverse.mp hc)
        · exact ih [] (by simp) w h
    · simp only [Bool.not_eq_true] at ha
      simp only [pySplitAux, ha, Bool.false_eq_true, if_false] at hw
      refine ih (a :: cur) ?_ w hw
      intro c hc
      rcases List.mem_cons.mp hc with h | h
      · subst h; exact ha
      · exact hcur c h

theorem pySplit_good (l : List Char) :
    ∀ w, w ∈ pySplit l → w ≠ [] ∧ ∀ c, c ∈ w → isPySpace c = false :=
  pySplitAux_good l [] (by simp)

theorem pySplitAux_append_word (w : List Char)
    (hw : ∀ c, c ∈ w → isPySpace c = false) :
    ∀ (cur rest : List Char),
      pySplitAux cur (w ++ rest) = pySplitAux (w.reverse ++ cur) rest := by
  induction w with
  | nil => intro cur rest; simp
  | cons a as ih =>
    intro cur rest
    have ha : isPySpace a = false := hw a (by simp)
    have has : ∀ c, c ∈ as → isPySpace c = false := fun c hc => hw c (by simp [hc])
    simp only [List.cons_append, pySplitAux, ha, Bool.false_eq_true, if_false,
      List.append_eq]
    rw [ih has (a :: cur) rest]
    simp [List.reverse_cons, List.append_assoc]

theorem joinSpace_cons_cons (w w' : List Char) (ws : List (List Char)) :
    joinSpace (w :: w' :: ws) = w ++ ' ' :: joinSpace (w' :: ws) := rfl

theorem pySplit_joinSpace (ws : List (List Char))
    (h : ∀ w, w ∈ ws → w ≠ [] ∧ ∀ c, c ∈ w → isPySpace c = false) :
    pySplit (joinSpace ws) = ws := by
  induction ws with
  | nil => rfl
  | cons w ws ih =>
    cases ws with
    | nil =>
      obtain ⟨hne, hgood⟩ := h w (by simp)
      show pySplitAux [] (joinSpace [w]) = [w]
      have : joinSpace [w] = w ++ [] := by simp [joinSpace]
      rw [this, pySplitAux_append_word w hgood [] []]
      unfold pySplitAux
      rw [if_neg (by simp [List.isEmpty_iff, hne])]
      simp
    | cons w' ws' =>
      obtain ⟨hne, hgood⟩ := h w (by simp)
      show pySplitAux [] (joinSpace (w :: w' :: ws')) = w :: w' :: ws'
      rw [joinSpace_cons_cons, pySplitAux_append_word w hgood [] _]
      unfold pySplitAux
      rw [if_pos (by decide)]
      rw [if_neg (by simp [List.isEmpty_iff, hne])]
      have ihs : pySplitAux [] (joinSpace (w' :: ws')) = w' :: ws' :=
        ih fun x hx => h x (by simp [hx])
      simp [ihs]

/-- A 50-word input (each word "abc", 199 characters in all): the spec formula
predicts ceil((50-50)/350) = 0 chunks but the code's loop emits one. -/
def c3shortText : List Char := joinSpace (List.replicate 50 (strL "abc"))

/-- C3 counterexample: a 199-character text of exactly 50 words is at the
minimum word count, so the claim's formula `ceil((L - O) / (W - O))` gives 0
chunks — but `chunk_text` runs its loop (`range(0, 50, 350)` visits offset 0)
and emits 1 chunk.  The loop actually iterates `ceil(L / (W - O))` times, not
`ceil((L - O) / (W - O))`. -/
theorem c3_chunk_count_counterexample :
    minWordsForChunking ≤ (pySplit c3shortText).length ∧
    minChunkChars ≤ c3shortText.length ∧
    (chunk_text c3shortText).length = 1 ∧
    ceilDiv ((pySplit c3shortText).length - overlapDefault)
      (chunkSizeDefault - overlapDefault) = 0 := by decide

/-- C3 (amended): texts under 100 characters produce no chunks; texts of
fewer than 50 words (but at least 100 characters) are returned whole as a
single chunk; for texts of L ≥ 50 words the loop visits the word offsets
0, 350, 700, … < L — that is `ceil(L / (W - O))` windows, NOT the claimed
`ceil((L - O) / (W - O))` — keeps exactly the windows longer than 100
characters (so when every window clears 100 characters the chunk count is
`ceil(L / (W - O))`), and every emitted chunk has at most W = 400 words and
more than 100 characters. -/
theorem c3_chunk_text_amended (text : List Char) :
    (text.length < minChunkChars → chunk_text text = []) ∧
    (minChunkChars ≤ text.length → (pySplit text).length < minWordsForChunking →
      chunk_text text = [text]) ∧
    (minChunkChars ≤ text.length → minWordsForChunking ≤ (pySplit text).length →
      (∀ c, c ∈ chunk_text text → minChunkChars < c.length ∧
        (pySplit c).length ≤ chunkSizeDefault) ∧
      ((∀ i, i ∈ chunkIdxs (pySplit text).length →
          minChunkChars < (chunkWindow (pySplit text) i).length) →
        (chunk_text text).length =
          ceilDiv (pySplit text).length (chunkSizeDefault - overlapDefault))) := by
  refine ⟨?_, ?_, ?_⟩
  · intro h
    simp [chunk_text, h]
  · intro h1 h2
    have hn : ¬ text.length < minChunkChars := Nat.not_lt.mpr h1
    simp [chunk_text, hn, h2]
  · intro h1 h2
    have hn : ¬ text.length < minChunkChars := Nat.not_lt.mpr h1
    have hn2 : ¬ (pySplit text).length < minWordsForChunking := Nat.not_lt.mpr h2
    have hct : chunk_text text =
        ((chunkIdxs (pySplit text).length).map (chunkWindow (pySplit text))).filter
          (fun c => decide (minChunkChars < c.length)) := by
      simp [chunk_text, hn, hn2]
    constructor
    · intro c hc
      rw [hct] at hc
      have hpred := List.of_mem_filter hc
      have hmem := List.mem_of_mem_filter hc
      obtain ⟨i, _, hci⟩ := List.mem_map.mp hmem
      refine ⟨of_decide_eq_true hpred, ?_⟩
      subst hci
      unfold chunkWindow
      rw [pySplit_joinSpace _ ?_]
      · exact List.length_take_le _ _
      · intro w hw
        have hw2 : w ∈ pySplit text :=
          List.drop_subset _ _ (List.take_subset _ _ hw)
        exact pySplit_good text w hw2
    · intro hall
      rw [hct]
      rw [List.filter_eq_self.mpr ?_]
      · rw [List.length_map]
        unfold chunkIdxs
        simp
      · intro c hc
        obtain ⟨i, hi, hci⟩ := List.mem_map.mp hc
        subst hci
        exact decide_eq_true (hall i hi)

/-- A 60-word, 299-character text: every window clears 100 characters. -/
def c3goodText : List Char := joinSpace (List.replicate 60 (strL "word"))

/-- Concrete instance of the amended C3 theorem: the 60-word text produces
exactly `ceil(60 / 350) = 1` chunk. -/
theorem c3_chunk_text_amended_inst :
    (chunk_text c3goodText).length =
      ceilDiv (pySplit c3goodText).length (chunkSizeDefault - overlapDefault) ∧
    ceilDiv (pySplit c3goodText).length (chunkSizeDefault - overlapDefault) = 1 :=
  ⟨((c3_chunk_text_amended c3goodText).2.2 (by decide) (by decide)).2 (by decide),
   by decide⟩

/- ------------------------------------------------------------------ -/
/- FreeVectorDB.add_documents id generation (src/rag/vector_db.py)     -/
/- ------------------------------------------------------------------ -/

/-- Python `f"{i:06d}"`: decimal digits zero-padded on the left to width 6. -/
def pad6 (n : Nat) : List Char :=
  let ds := Nat.toDigits 10 n
  List.replicate (6 - ds.length) '0' ++ ds

/-- The id `f"doc_{i:06d}"` assigned to the i-th document of one call. -/
def docId (i : Nat) : List Char := strL "doc_" ++ pad6 i

/-- `ids = [f"doc_{i:06d}" for i in range(len(documents))]`: the ids one
`add_documents` call generates for `n` documents. -/
def addDocumentsIds (n : Nat) : List (List Char) := (List.range n).map docId

/-- The ids generated by a sequence of `add_documents` calls (one entry per
call, holding that call's document count) between rebuilds.  The counter
restarts at 0 on every call. -/
def idsAcrossCalls (calls : List Nat) : List (List Char) :=
  (calls.map addDocumentsIds).flatten

/-- C8 is violated by the code: two `add_documents` calls of one document
each — no rebuild between them — both generate the id "doc_000000", because
the id counter restarts at `range(len(documents))` on every call instead of
continuing from the persisted count.  The spec's uniqueness invariant
("unique within an index generation") fails for any second call. -/
theorem c8_duplicate_ids_across_calls :
    idsAcrossCalls [1, 1] = [strL "doc_000000", strL "doc_000000"] ∧
    ¬ (idsAcrossCalls [1, 1]).Nodup := by
  refine ⟨by decide, by decide⟩

/- ------------------------------------------------------------------ -/
/- OpenRouterClient.generate (src/rag/openrouter_client.py)            -/
/- ------------------------------------------------------------------ -/

/-- The canned message substituted when the error mentions "credit balance". -/
def creditExhaustedMessage : List Char :=
  strL "❌ OpenRouter credits exhausted. Please add more credits or use a different API key."

/-- `OpenRouterClient.generate`: the underlying chat-completion call either
produces content (`Except.ok`) or raises (`Except.error e`, carrying
`str(e)`).  The `try/except` returns a string in every case: the canned
credit message when the lowercased error mentions "credit balance",
otherwise `"❌ Error: " + error_msg`. -/
def generate (raw : Except (List Char) (List Char)) : List Char :=
  match raw with
  | Except.ok content => content
  | Except.error e =>
    if containsSub (strL "credit balance") (lowerL e) then creditExhaustedMessage
    else strL "❌ Error: " ++ e

/- ------------------------------------------------------------------ -/
/- HealthCompassRAG.query (src/rag/rag_pipeline.py)                    -/
/- ------------------------------------------------------------------ -/

/-- The metadata dict stored with each chunk (see `FreeVectorDB.add_documents`)
and returned with each search hit.  `sectionLabel` models the Python key
named after the Lean keyword for sections. -/
structure SourceMeta where
  source : List Char
  url : List Char
  title : List Char
  sectionLabel : List Char
  credibility : List Char
  organization : List Char
deriving DecidableEq, Repr

/-- One retrieval hit as formatted by `FreeVectorDB.search`. -/
structure Hit where
  document : List Char
  metadata : SourceMeta
deriving DecidableEq, Repr

/-- One entry of the deduplicated `sources` list built in step 4 of `query`. -/
structure SourceEntry where
  source : List Char
  url : List Char
  title : List Char
  organization : List Char
  credibility : List Char
deriving DecidableEq, Repr

/-- The deduplication key `(doc['metadata']['source'], doc['metadata']['url'])`. -/
def hitKey (d : Hit) : List Char × List Char := (d.metadata.source, d.metadata.url)

def entryKey (e : SourceEntry) : List Char × List Char := (e.source, e.url)

/-- The dict appended to `sources` for the first hit of each key. -/
def mkSource (d : Hit) : SourceEntry :=
  ⟨d.metadata.source, d.metadata.url, d.metadata.title,
   d.metadata.organization, d.metadata.credibility⟩

/-- The `seen`-set loop of step 4 of `HealthCompassRAG.query`. -/
def extractSourcesAux (seen : List (List Char × List Char)) :
    List Hit → List SourceEntry
  | [] => []
  | d :: ds =>
    if hitKey d ∈ seen then extractSourcesAux seen ds
    else mkSource d :: extractSourcesAux (hitKey d :: seen) ds

def extractSources (docs : List Hit) : List SourceEntry := extractSourcesAux [] docs

/-- The fixed no-hit answer of `HealthCompassRAG.query` (two adjacent string
literals in the source, concatenated). -/
def insufficientMessage : List Char :=
  strL "I couldn't find relevant information in my database about this topic. Please consult a healthcare professional for accurate, personalized information."

/-- The dict returned by `HealthCompassRAG.query`.  `answer` is optional
because the emergency branch passes `safety_result['message']` through
unchanged; `context_docs` is present only on the successful path. -/
structure Envelope where
  answer : Option (List Char)
  sources : List SourceEntry
  safety_alert : SafetyResult
  is_emergency : Bool
  context_docs : Option (List Hit)
deriving DecidableEq, Repr

/-- How many times `query` invoked `vector_db.search` and `llm.generate`. -/
structure CallLog where
  searchCalls : Nat
  genCalls : Nat
deriving DecidableEq, Repr

/-- `HealthCompassRAG.query`.  External effects are made explicit:
`searchHits` is the value `vector_db.search` would return (consumed only if
search is invoked) and `genRaw` the outcome of the underlying LLM call
(consumed, through `generate`, only if generation is invoked); the `CallLog`
counts the invocations. -/
def query (user_question : List Char) (searchHits : List Hit)
    (genRaw : Except (List Char) (List Char)) : Envelope × CallLog :=
  let safety_result := check_query user_question
  if safety_result.level = SafetyLevel.EMERGENCY then
    (⟨safety_result.message, [], safety_result, true, none⟩, ⟨0, 0⟩)
  else if searchHits.isEmpty then
    (⟨some insufficientMessage, [], safety_result, false, none⟩, ⟨1, 0⟩)
  else
    (⟨some (generate genRaw), extractSources searchHits, safety_result, false,
      some searchHits⟩, ⟨1, 1⟩)

/-- A concrete retrieval hit, for instantiating the pipeline theorems. -/
def demoHit : Hit :=
  ⟨strL "Diabetes is a condition of high blood sugar.",
   ⟨strL "CDC", strL "https://cdc.gov/diabetes", strL "About Diabetes",
    strL "Main Content", strL "high", strL "Centers for Disease Control"⟩⟩

/-- C1: for every query classified EMERGENCY, `query` returns the canned
emergency message as the answer, an empty sources list and
`is_emergency = true`, and performs zero vector-search and zero generation
calls — the result is the same for every possible search result and every
possible generation outcome. -/
theorem c1_emergency_short_circuit (q : List Char) (hits : List Hit)
    (gen : Except (List Char) (List Char))
    (h : (check_query q).level = SafetyLevel.EMERGENCY) :
    query q hits gen =
      (⟨some emergencyMessage, [], check_query q, true, none⟩, ⟨0, 0⟩) := by
  have hm := check_query_message_of_emergency q h
  simp [query, h, hm]

/-- Concrete instance of C1 at the spec's end-to-end scenario 2 query, with a
non-empty candidate hit list and a failing generation call: neither is
consumed. -/
theorem c1_emergency_short_circuit_inst :
    query (strL "I have severe chest pain and can't breathe") [demoHit]
        (Except.error (strL "network down")) =
      (⟨some emergencyMessage, [],
        check_query (strL "I have severe chest pain and can't breathe"),
        true, none⟩, ⟨0, 0⟩) :=
  c1_emergency_short_circuit _ _ _ (by decide)

/-- C4: for every non-EMERGENCY query for which vector search returns zero
hits, `query` returns the fixed insufficient-information envelope with
`is_emergency = false` and no sources.  `query` is a total Lean function, so
this branch — like every branch — returns a value and cannot raise; the
result does not depend on the generation outcome `gen`. -/
theorem c4_no_hit_terminal (q : List Char) (gen : Except (List Char) (List Char))
    (h : (check_query q).level ≠ SafetyLevel.EMERGENCY) :
    query q [] gen =
      (⟨some insufficientMessage, [], check_query q, false, none⟩, ⟨1, 0⟩) := by
  simp [query, h]

/-- Concrete instance of C4: an INFO query against an empty index. -/
theorem c4_no_hit_terminal_inst :
    query (strL "what is diabetes") [] (Except.error (strL "quota exceeded")) =
      (⟨some insufficientMessage, [], check_query (strL "what is diabetes"),
        false, none⟩, ⟨1, 0⟩) :=
  c4_no_hit_terminal _ _ (by decide)

/-- C7: an URGENT-classified query does not short-circuit: its answer,
sources, context and call counts are identical to those of an INFO-classified
query over the same hits and generation outcome (only the `safety_alert`
field differs, carrying the URGENT verdict), `is_emergency` is false, search
is invoked, and when there are hits generation is invoked and the substantive
answer and deduplicated sources are returned. -/
theorem c7_urgent_proceeds (q q' : List Char) (hits : List Hit)
    (gen : Except (List Char) (List Char))
    (hu : (check_query q).level = SafetyLevel.URGENT)
    (hi : (check_query q').level = SafetyLevel.INFO) :
    (query q hits gen).1.answer = (query q' hits gen).1.answer ∧
    (query q hits gen).1.sources = (query q' hits gen).1.sources ∧
    (query q hits gen).1.context_docs = (query q' hits gen).1.context_docs ∧
    (query q hits gen).2 = (query q' hits gen).2 ∧
    (query q hits gen).1.is_emergency = false ∧
    (query q hits gen).1.safety_alert = check_query q ∧
    (query q hits gen).2.searchCalls = 1 ∧
    (hits ≠ [] →
      (query q hits gen).2.genCalls = 1 ∧
      (query q hits gen).1.answer = some (generate gen) ∧
      (query q hits gen).1.sources = extractSources hits) := by
  have hne : (check_query q).level ≠ SafetyLevel.EMERGENCY := by rw [hu]; decide
  have hne' : (check_query q').level ≠ SafetyLevel.EMERGENCY := by rw [hi]; decide
  by_cases he : hits.isEmpty
  · have hnil : hits = [] := List.isEmpty_iff.mp he
    subst hnil
    refine ⟨by simp [query, hne, hne'], by simp [query, hne, hne'],
      by simp [query, hne, hne'], by simp [query, hne, hne'],
      by simp [query, hne], by simp [query, hne],
      by simp [query, hne], fun hcon => absurd rfl hcon⟩
  · refine ⟨by simp [query, hne, hne', he], by simp [query, hne, hne', he],
      by simp [query, hne, hne', he], by simp [query, hne, hne', he],
      by simp [query, hne, he], by simp [query, hne, he],
      by simp [query, hne, he], fun _ => ⟨by simp [query, hne, he],
        by simp [query, hne, he], by simp [query, hne, he]⟩⟩

/-- Concrete instance of C7 at the spec's end-to-end scenario 3 query
(an URGENT pattern) next to a plain INFO query, over one hit. -/
theorem c7_urgent_proceeds_inst :
    (query (strL "high fever that won't go down") [demoHit]
        (Except.ok (strL "Fever guidance."))).1.is_emergency = false ∧
    (query (strL "high fever that won't go down") [demoHit]
        (Except.ok (strL "Fever guidance."))).1.safety_alert =
      check_query (strL "high fever that won't go down") ∧
    (query (strL "high fever that won't go down") [demoHit]
        (Except.ok (strL "Fever guidance."))).1.answer =
      (query (strL "what is diabetes") [demoHit]
        (Except.ok (strL "Fever guidance."))).1.answer :=
  ⟨((c7_urgent_proceeds _ (strL "what is diabetes") _ _ (by decide)
      (by decide)).2.2).2.2.1,
   ((c7_urgent_proceeds _ (strL "what is diabetes") _ _ (by decide)
      (by decide)).2.2).2.2.2.1,
   (c7_urgent_proceeds _ (strL "what is diabetes") _ _ (by decide)
      (by decide)).1⟩

/-- C6 counterexample: `generate` does NOT return the raw error text — it
prepends "❌ Error: " to it, and when the error mentions "credit balance"
it substitutes a canned message that does not contain the raw text at all. -/
theorem c6_raw_error_counterexample :
    generate (Except.error (strL "boom")) = strL "❌ Error: boom" ∧
    generate (Except.error (strL "boom")) ≠ strL "boom" ∧
    generate (Except.error (strL "Insufficient credit balance")) =
      creditExhaustedMessage := by
  refine ⟨by decide, by decide, by decide⟩

/-- C6 (amended): on any failure of the underlying generation call,
`OpenRouterClient.generate` returns an explanatory string instead of
propagating the exception — the canned credit message when the error mentions
"credit balance" (case-insensitively), otherwise "❌ Error: " followed by the
raw error text — so `HealthCompassRAG.query` still returns a complete
envelope with answer, sources, safety_alert and is_emergency fields. -/
theorem c6_generation_failure_degrades (q : List Char) (hits : List Hit)
    (e : List Char)
    (h1 : (check_query q).level ≠ SafetyLevel.EMERGENCY) (h2 : hits ≠ []) :
    query q hits (Except.error e) =
      (⟨some (generate (Except.error e)), extractSources hits, check_query q,
        false, some hits⟩, ⟨1, 1⟩) ∧
    (containsSub (strL "credit balance") (lowerL e) = false →
      generate (Except.error e) = strL "❌ Error: " ++ e) := by
  constructor
  · have he : hits.isEmpty = false := by
      simpa [List.isEmpty_iff] using h2
    simp [query, h1, he]
  · intro hc
    simp [generate, hc]

/-- Concrete instance of the amended C6 theorem: an INFO query with one hit
and a network failure still yields the full envelope. -/
theorem c6_generation_failure_degrades_inst :
    query (strL "what is diabetes") [demoHit]
        (Except.error (strL "network timeout")) =
      (⟨some (generate (Except.error (strL "network timeout"))),
        extractSources [demoHit], check_query (strL "what is diabetes"),
        false, some [demoHit]⟩, ⟨1, 1⟩) :=
  (c6_generation_failure_degrades _ _ _ (by decide) (by decide)).1

/- Deduplication machinery for C5.  `dedupByKey` is the specification-side
rendering of "collapse to unique (source, url) pairs, preserving first-seen
order, retaining the fields of the first occurrence": keep the head, delete
every later entry with the same key, recurse. -/

def dedupByKey : List SourceEntry → List SourceEntry
  | [] => []
  | e :: es => e :: dedupByKey (es.filter fun x => !decide (entryKey x = entryKey e))
termination_by l => l.length
decreasing_by
  simp only [List.length_cons]
  exact Nat.lt_succ_of_le (List.length_filter_le _ _)

theorem dedupByKey_cons (e : SourceEntry) (es : List SourceEntry) :
    dedupByKey (e :: es) =
      e :: dedupByKey (es.filter fun x => !decide (entryKey x = entryKey e)) := by
  rw [dedupByKey]

theorem extractSourcesAux_eq_dedupByKey (docs : List Hit) :
    ∀ seen, extractSourcesAux seen docs =
      dedupByKey ((docs.map mkSource).filter
        fun e => !decide (entryKey e ∈ seen)) := by
  induction docs with
  | nil => intro seen; simp [extractSourcesAux, dedupByKey]
  | cons d ds ih =>
    intro seen
    have hk : entryKey (mkSource d) = hitKey d := rfl
    by_cases hd : hitKey d ∈ seen
    · have hcond : (!decide (entryKey (mkSource d) ∈ seen)) = false := by
        simp [hk, hd]
      rw [show extractSourcesAux seen (d :: ds) = extractSourcesAux seen ds from by
        simp [extractSourcesAux, hd]]
      rw [List.map_cons, List.filter_cons, hcond]
      simp only [Bool.false_eq_true, if_false]
      exact ih seen
    · have hcond : (!decide (entryKey (mkSource d) ∈ seen)) = true := by
        simp [hk, hd]
      rw [show extractSourcesAux seen (d :: ds)
          = mkSource d :: extractSourcesAux (hitKey d :: seen) ds from by
        simp [extractSourcesAux, hd]]
      rw [List.map_cons, List.filter_cons, hcond]
      simp only [if_true]
      rw [dedupByKey_cons, ih (hitKey d :: seen), List.filter_filter]
      congr 1
      apply congrArg
      apply List.filter_congr
      intro x _
      by_cases h1 : entryKey x = hitKey d
      · simp [h1, hk]
      · by_cases h2 : entryKey x ∈ seen <;> simp [h1, h2, hk]

theorem extractSources_eq_dedupByKey (docs : List Hit) :
    extractSources docs = dedupByKey (docs.map mkSource) := by
  have h := extractSourcesAux_eq_dedupByKey docs []
  have h2 : ((docs.map mkSource).filter
      fun e => !decide (entryKey e ∈ ([] : List (List Char × List Char))))
      = docs.map mkSource := by
    apply List.filter_eq_self.mpr
    intro a _
    simp
  rw [extractSources, h, h2]

theorem dedupByKey_subset (l : List SourceEntry) :
    ∀ e, e ∈ dedupByKey l → e ∈ l := by
  induction l using dedupByKey.induct with
  | case1 => intro e he; simp [dedupByKey] at he
  | case2 e es ih =>
    intro x hx
    rw [dedupByKey_cons] at hx
    rcases List.mem_cons.mp hx with h | h
    · simp [h]
    · exact List.mem_cons_of_mem _ (List.mem_of_mem_filter (ih x h))

theorem dedupByKey_keys_nodup (l : List SourceEntry) :
    ((dedupByKey l).map entryKey).Nodup := by
  induction l using dedupByKey.induct with
  | case1 => simp [dedupByKey]
  | case2 e es ih =>
    rw [dedupByKey_cons, List.map_cons, List.nodup_cons]
    refine ⟨?_, ih⟩
    intro hmem
    obtain ⟨x, hx, hkx⟩ := List.mem_map.mp hmem
    have hxf := dedupByKey_subset _ x hx
    have := List.of_mem_filter hxf
    rw [hkx] at this
    simp at this

theorem mem_keys_dedupByKey (l : List SourceEntry) (k : List Char × List Char) :
    k ∈ (dedupByKey l).map entryKey ↔ k ∈ l.map entryKey := by
  induction l using dedupByKey.induct with
  | case1 => simp [dedupByKey]
  | case2 e es ih =>
    rw [dedupByKey_cons, List.map_cons, List.map_cons]
    constructor
    · intro h
      rcases List.mem_cons.mp h with h | h
      · simp [h]
      · rw [ih] at h
        obtain ⟨x, hx, hkx⟩ := List.mem_map.mp h
        exact List.mem_cons_of_mem _
          (List.mem_map.mpr ⟨x, List.mem_of_mem_filter hx, hkx⟩)
    · intro h
      rcases List.mem_cons.mp h with h | h
      · simp [h]
      · by_cases hke : k = entryKey e
        · simp [hke]
        · obtain ⟨x, hx, hkx⟩ := List.mem_map.mp h
          refine List.mem_cons_of_mem _ (ih.mpr (List.mem_map.mpr ⟨x, ?_, hkx⟩))
          apply List.mem_filter.mpr
          refine ⟨hx, ?_⟩
          subst hkx
          simp [hke]

theorem find?_filter_of_imp (l : List SourceEntry) (p q : SourceEntry → Bool)
    (h : ∀ x, p x = true → q x = true) :
    (l.filter q).find? p = l.find? p := by
  induction l with
  | nil => rfl
  | cons a t ih =>
    by_cases hq : q a
    · rw [List.filter_cons_of_pos hq]
      by_cases hp : p a
      · rw [List.find?_cons_of_pos _ hp, List.find?_cons_of_pos _ hp]
      · simp only [Bool.not_eq_true] at hp
        rw [List.find?_cons_of_neg _ (by simp [hp]),
          List.find?_cons_of_neg _ (by simp [hp])]
        exact ih
    · simp only [Bool.not_eq_true] at hq
      have hp : p a = false := by
        by_contra hc
        simp only [Bool.not_eq_false] at hc
        rw [h a hc] at hq
        exact absurd hq (by simp)
      rw [List.filter_cons_of_neg (by simp [hq]),
        List.find?_cons_of_neg _ (by simp [hp])]
      exact ih

theorem dedupByKey_find? (l : List SourceEntry) :
    ∀ e, e ∈ dedupByKey l →
      l.find? (fun x => decide (entryKey x = entryKey e)) = some e := by
  induction l using dedupByKey.induct with
  | case1 => intro e he; simp [dedupByKey] at he
  | case2 e es ih =>
    intro x hx
    rw [dedupByKey_cons] at hx
    rcases List.mem_cons.mp hx with h | h
    · subst h
      rw [List.find?_cons_of_pos _ (by simp)]
    · have hxf : x ∈ es.filter fun y => !decide (entryKey y = entryKey e) :=
        dedupByKey_subset _ x h
      have hne : ¬ entryKey x = entryKey e := by
        have := List.of_mem_filter hxf
        simpa using this
      have hne' : ¬ entryKey e = entryKey x := fun hc => hne hc.symm
      rw [List.find?_cons_of_neg _ (by simp [hne'])]
      rw [← find?_filter_of_imp es (fun y => decide (entryKey y = entryKey x))
        (fun y => !decide (entryKey y = entryKey e)) ?_]
      · exact ih x h
      · intro y hy
        have hyx : entryKey y = entryKey x := of_decide_eq_true hy
        simp [hyx, hne]

theorem find?_map_mkSource (hits : List Hit) (p : SourceEntry → Bool) :
    (hits.map mkSource).find? p = (hits.find? fun d => p (mkSource d)).map mkSource := by
  induction hits with
  | nil => rfl
  | cons d ds ih =>
    rw [List.map_cons, List.find?_cons, List.find?_cons]
    cases h : p (mkSource d) <;> simp [h, ih]

/-- C5: the `sources` list packaged by `HealthCompassRAG.query` is the
first-occurrence deduplication of the hits by `(source, url)`: it equals the
specification-side `dedupByKey` of the per-hit entries, its keys are
pairwise distinct, a key occurs in it exactly when it occurs among the hits
(so there is exactly one entry per distinct pair, in first-seen order), and
every entry carries the title/organization/credibility of the FIRST hit with
its key (`List.find?` over the hit list). -/
theorem c5_sources_dedup (hits : List Hit) :
    extractSources hits = dedupByKey (hits.map mkSource) ∧
    ((extractSources hits).map entryKey).Nodup ∧
    (∀ k, k ∈ (extractSources hits).map entryKey ↔ k ∈ hits.map hitKey) ∧
    (∀ e, e ∈ extractSources hits →
      ∃ d, hits.find? (fun x => decide (hitKey x = entryKey e)) = some d ∧
        e = mkSource d) := by
  have heq := extractSources_eq_dedupByKey hits
  refine ⟨heq, ?_, ?_, ?_⟩
  · rw [heq]
    exact dedupByKey_keys_nodup _
  · intro k
    rw [heq, mem_keys_dedupByKey]
    have hmm : (hits.map mkSource).map entryKey = hits.map hitKey := by
      rw [List.map_map]
      rfl
    rw [hmm]
  · intro e he
    rw [heq] at he
    have hf := dedupByKey_find? _ e he
    rw [find?_map_mkSource] at hf
    obtain ⟨d, hd, hmk⟩ := Option.map_eq_some'.mp hf
    exact ⟨d, hd, hmk.symm⟩

/-- A second hit sharing `demoHit`'s `(source, url)` key but with a
different title and text. -/
def demoHit2 : Hit :=
  ⟨strL "Symptoms of diabetes include thirst and fatigue.",
   ⟨strL "CDC", strL "https://cdc.gov/diabetes", strL "Diabetes Symptoms",
    strL "Symptoms", strL "high", strL "Centers for Disease Control"⟩⟩

/-- Concrete instance of C5: two hits from the same `(source, url)` collapse
to a single entry, retaining the first hit's fields. -/
theorem c5_sources_dedup_inst :
    extractSources [demoHit, demoHit2] = [mkSource demoHit] ∧
    (strL "CDC", strL "https://cdc.gov/diabetes") ∈
      (extractSources [demoHit, demoHit2]).map entryKey :=
  ⟨by decide,
   ((c5_sources_dedup [demoHit, demoHit2]).2.2.1 _).mpr (by decide)⟩
